import Mathlib

/-!
Verification of the background-fetch coordination layer of a terminal
podcast client. The Rust sources are shallowly embedded: strings are
lists of characters, the two mpsc queues appear as explicit inputs
(the result of one non-blocking `try_recv`) and outputs (the list of
messages sent during one cycle), and the external collaborators
(the URL parser of the `url` crate and the network feed fetcher) are
parameters of the functions that invoke them. A `usize` subtraction
that can underflow (a panic in a debug build) is modelled with
checked subtraction returning `Option`.
-/

/-- Strings are modelled as lists of characters (Rust `String` / `&str`). -/
abbrev Str := List Char

/-- One feed entry, `rss::Item`, restricted to the fields the data model
names (title, description, enclosure/audio URL); equality on this record
models byte-for-byte equality of the Rust value. -/
structure Item where
  title : Option Str
  description : Option Str
  enclosureUrl : Option Str
  deriving DecidableEq, Repr

/-- A decoded feed document, `rss::Channel`: title plus ordered episode list. -/
structure Channel where
  title : Str
  items : List Item
  deriving DecidableEq, Repr

/-- A validated absolute URL, as produced by the external `url` crate;
carried as its textual form. -/
abbrev Url := Str

/-- Type `Command` from `src/ui/input.rs`. -/
inductive Command where
  | NoOp : Command
  | FetchPodcastFeed : Str → Command
  deriving DecidableEq, Repr

/-- Type `Request` from `src/message/mod.rs`: foreground → background. -/
inductive Request where
  | Feed : Url → Request
  | Episode : Option Item → Request
  deriving DecidableEq, Repr

/-- Type `Response` from `src/message/mod.rs`: background → foreground. -/
inductive Response where
  | Feed : Channel → Response
  | Episode : Item → Response
  deriving DecidableEq, Repr

/-- Type `DisplayAction` from `src/message/mod.rs`; `Input` is the `#[default]`. -/
inductive DisplayAction where
  | Input : DisplayAction
  | ListEpisodes : DisplayAction
  | DescribeEpisode : DisplayAction
  deriving DecidableEq, Repr

/-- Widget state `tui::widgets::ListState`, restricted to the selection it carries;
`ListState::default()` has `selected = None`. -/
structure ListState where
  selected : Option Nat
  deriving DecidableEq, Repr

/-- Struct `App` from `src/main.rs`: the foreground-owned application state. -/
structure App where
  input : Str
  channel : Option Channel
  item : Option Item
  state : ListState
  display_action : DisplayAction
  deriving DecidableEq, Repr

/-- Default state `App::default()`: empty input, no channel, no episode, cursor unset,
`DisplayAction::Input`. -/
def App.default : App :=
  { input := [], channel := none, item := none,
    state := { selected := none }, display_action := DisplayAction.Input }

/-- Rust `str::split(" ")`: split on every occurrence of the single-space
separator, keeping empty pieces; always yields at least one piece. -/
def splitOnSpace : Str → List Str
  | [] => [[]]
  | c :: cs =>
    match splitOnSpace cs with
    | [] => [[]]
    | t :: ts => if c = ' ' then [] :: t :: ts else (c :: t) :: ts

/-- Function `parse` from `src/ui/input.rs`: first space-token is the opcode;
`/load` yields `FetchPodcastFeed` of the remaining tokens joined with the
empty separator (`args.join("")`); anything else yields `NoOp`. The
`op.is_none()` branch of the source corresponds to the empty token list. -/
def parse (s : Str) : Command :=
  match splitOnSpace s with
  | [] => Command.NoOp
  | op :: args =>
    if op = "/load".data then Command.FetchPodcastFeed args.flatten
    else Command.NoOp

theorem splitOnSpace_ne_nil (s : Str) : splitOnSpace s ≠ [] := by
  cases s with
  | nil => simp [splitOnSpace]
  | cons c cs =>
    simp only [splitOnSpace]
    cases h : splitOnSpace cs with
    | nil => simp
    | cons t ts =>
      by_cases hc : c = ' ' <;> simp [hc]

theorem splitOnSpace_space (cs : Str) :
    splitOnSpace (' ' :: cs) = [] :: splitOnSpace cs := by
  obtain ⟨t, ts, h⟩ := List.exists_cons_of_ne_nil (splitOnSpace_ne_nil cs)
  simp [splitOnSpace, h]

theorem splitOnSpace_nonspace (c : Char) (hc : c ≠ ' ') (cs : Str) :
    splitOnSpace (c :: cs) =
      (c :: (splitOnSpace cs).headI) :: (splitOnSpace cs).tail := by
  obtain ⟨t, ts, h⟩ := List.exists_cons_of_ne_nil (splitOnSpace_ne_nil cs)
  simp [splitOnSpace, h, hc]

/-- Prepending `"/load "` to any string splits off `"/load"` as the first
token and leaves the tokens of the remainder. -/
theorem splitOnSpace_load_head (u : Str) :
    splitOnSpace ("/load ".data ++ u) = "/load".data :: splitOnSpace u := by
  obtain ⟨t, ts, h⟩ := List.exists_cons_of_ne_nil (splitOnSpace_ne_nil u)
  show splitOnSpace ('/' :: 'l' :: 'o' :: 'a' :: 'd' :: ' ' :: u) = _
  simp [splitOnSpace, h]

/-- Function `handle_background_request` from `src/data/mod.rs` (duplicated verbatim
as `handle_user_input` in `src/main.rs`): one worker cycle. `req` is the
result of the non-blocking `try_recv` on the inbound queue; `fetch` is the
external feed fetcher `feed::get_feed` (`some` on success, `none` on
transport or decode failure); the returned list is everything the cycle
pushes to the outbound queue. -/
def handle_background_request (fetch : Url → Option Channel)
    (req : Option Request) : List Response :=
  match req with
  | none => []
  | some (Request.Feed u) =>
    match fetch u with
    | some c => [Response.Feed c]
    | none => []
  | some (Request.Episode e) =>
    match e with
    | some i => [Response.Episode i]
    | none => []

/-- Checked `usize` subtraction: `none` models the underflow panic of a
Rust debug build. -/
def checkedSub (a b : Nat) : Option Nat :=
  if b ≤ a then some (a - b) else none

/-- The index computed by `App::next` (`src/main.rs`): when a channel and a
selection are present it evaluates `if i >= items.len() - 1 { 0 } else
{ i + 1 }` (whose subtraction is evaluated unconditionally and can
underflow); otherwise `unwrap_or_default()` yields `0`. -/
def nextIndex (app : App) : Option Nat :=
  match app.channel, app.state.selected with
  | some c, some i =>
    (checkedSub c.items.length 1).map fun last => if last ≤ i then 0 else i + 1
  | _, _ => some 0

/-- Method `App::next` from `src/main.rs`: select the next item; `none` models a
panic of the index computation. -/
def App.next (app : App) : Option App :=
  (nextIndex app).map fun i => { app with state := { selected := some i } }

/-- The index computed by `App::previous` (`src/main.rs`): when a channel
and a selection are present it evaluates `if i == 0 { items.len() - 1 }
else { i - 1 }` (the subtraction that can underflow is only reached when
`i == 0`); otherwise `unwrap_or_default()` yields `0`. -/
def prevIndex (app : App) : Option Nat :=
  match app.channel, app.state.selected with
  | some c, some i =>
    if i = 0 then checkedSub c.items.length 1 else some (i - 1)
  | _, _ => some 0

/-- Method `App::previous` from `src/main.rs`: select the previous item; `none`
models a panic of the index computation. -/
def App.previous (app : App) : Option App :=
  (prevIndex app).map fun i => { app with state := { selected := some i } }

/-- The episode resolved by the `ListEpisodes` submit branch of `run_app`
(`src/main.rs`): `app.channel.as_ref().map(|c| c.items()).and_then(|items|
app.state.selected().and_then(|idx| items.get(idx)).cloned())`. -/
def selectedItem (app : App) : Option Item :=
  app.channel.bind fun c =>
    (app.state.selected.bind fun idx => c.items.get? idx)

/-- The `KeyCode::Enter` branch of `run_app` (`src/main.rs`): one submit.
`urlParse` is the external `url::Url::parse` collaborator (`some` exactly
on valid absolute URLs). Returns the new state and the requests sent to
the inbound queue. In the `Input` state the buffer is drained
(`app.input.drain(..)`) before the URL check; in `ListEpisodes` the
request is sent whether or not an episode was resolved, and the display
advances only when one was. -/
def submit (urlParse : Str → Option Url) (app : App) : App × List Request :=
  match app.display_action with
  | DisplayAction.Input =>
    let msg := app.input
    let drained := { app with input := [] }
    match urlParse msg with
    | some u =>
      ({ drained with display_action := DisplayAction.ListEpisodes },
        [Request.Feed u])
    | none => (drained, [])
  | DisplayAction.ListEpisodes =>
    let it := selectedItem app
    let app1 :=
      if it.isSome then { app with display_action := DisplayAction.DescribeEpisode }
      else app
    (app1, [Request.Episode it])
  | DisplayAction.DescribeEpisode => (app, [])

/-- The response-application step of the `ui` function (`src/main.rs`):
`Response::Feed(c)` replaces the loaded channel, `Response::Episode(e)`
replaces the loaded episode. -/
def applyResponse (app : App) (r : Response) : App :=
  match r with
  | Response.Feed c => { app with channel := some c }
  | Response.Episode e => { app with item := some e }

/-- The outbound-queue poll of the `ui` function (`src/main.rs`): at most
one response is taken per cycle with a non-blocking `try_recv` (`rx` is
its result) and applied; no response leaves the state untouched. -/
def pollResponse (app : App) (rx : Option Response) : App :=
  match rx with
  | some r => applyResponse app r
  | none => app

/-- One foreground event, as dispatched by `run_app` and `ui`
(`src/main.rs`): a key event (`Enter`, a character, `Backspace`, `Up`,
`Down`, any other non-quit key) or the arrival of a response on the
outbound queue. -/
inductive KEvent where
  | enter : KEvent
  | char : Char → KEvent
  | backspace : KEvent
  | up : KEvent
  | down : KEvent
  | resp : Response → KEvent
  | other : KEvent
  deriving DecidableEq, Repr

/-- One step of the foreground loop of `run_app` (`src/main.rs`) on one
event: `Enter` submits, a character pushes onto the input buffer,
`Backspace` pops it, `Up`/`Down` move the cursor (possibly panicking),
and a response arrival is applied by `ui`. Returns the new state and the
requests emitted; `none` models a panic. -/
def step (urlParse : Str → Option Url) (app : App) (e : KEvent) :
    Option (App × List Request) :=
  match e with
  | KEvent.enter => some (submit urlParse app)
  | KEvent.char c => some ({ app with input := app.input ++ [c] }, [])
  | KEvent.backspace => some ({ app with input := app.input.dropLast }, [])
  | KEvent.up => app.previous.map fun a => (a, [])
  | KEvent.down => app.next.map fun a => (a, [])
  | KEvent.resp r => some (applyResponse app r, [])
  | KEvent.other => some (app, [])

/-- Iterated foreground steps over a sequence of events, stopping at a
panic. -/
def run (urlParse : Str → Option Url) (app : App) : List KEvent → Option App
  | [] => some app
  | e :: es =>
    match step urlParse app e with
    | some (a, _) => run urlParse a es
    | none => none

/-- A concrete model of the external `url` crate used only to instantiate
the `urlParse` parameter at concrete inputs: a string is accepted as an
absolute URL exactly when it starts with a nonempty scheme followed by
the separator `"://"`, and the parsed URL is carried as the string
itself. -/
def schemeSep : Str → Bool
  | ':' :: '/' :: '/' :: _ => true
  | ':' :: _ => false
  | _ :: cs => schemeSep cs
  | [] => false

/-- URL-validity oracle built on `schemeSep`; rejects strings whose first
character is already the separator (empty scheme). -/
def urlParseModel (s : Str) : Option Url :=
  match s with
  | [] => none
  | c :: cs => if c = ':' then none else if schemeSep (c :: cs) then some s else none


/-- Concrete state: the default application with an unparsable URL typed
into the input buffer. -/
def invalidInputApp : App := { App.default with input := "notaurl".data }

/-- Concrete state: the default application with a valid absolute URL typed
into the input buffer. -/
def validInputApp : App := { App.default with input := "https://g.co".data }

/-- Concrete state: a loaded channel whose episode list is empty while a
selection exists (reachable by pressing the down key before any feed is
loaded and then loading a feed with zero episodes). -/
def emptyListSelApp : App :=
  { App.default with
    channel := some { title := [], items := [] },
    state := { selected := some 0 } }

/-- Concrete episodes and a concrete two-episode channel. -/
def epA : Item := { title := some "a".data, description := none, enclosureUrl := none }

/-- Second concrete episode. -/
def epB : Item := { title := some "b".data, description := none, enclosureUrl := none }

/-- A loaded two-episode channel with the cursor on the second episode,
showing the list. -/
def twoItemApp : App :=
  { App.default with
    channel := some { title := "t".data, items := [epA, epB] },
    state := { selected := some 1 },
    display_action := DisplayAction.ListEpisodes }

/-- Concrete state already in the `DescribeEpisode` display state. -/
def describeApp : App :=
  { App.default with display_action := DisplayAction.DescribeEpisode }

/-- C1: one worker cycle publishes at most one response per accepted
request, and only on success: a `FetchFeed` whose fetch fails and a
`FetchEpisode` carrying no episode publish nothing (the request is dropped
silently, with no error response and no retry), while the success cases
publish exactly the one success response. -/
theorem worker_at_most_one_response_only_on_success
    (fetch : Url → Option Channel) (req : Option Request) :
    (handle_background_request fetch req).length ≤ 1 ∧
    (∀ u, fetch u = none →
      handle_background_request fetch (some (Request.Feed u)) = []) ∧
    (∀ u c, fetch u = some c →
      handle_background_request fetch (some (Request.Feed u)) = [Response.Feed c]) ∧
    handle_background_request fetch (some (Request.Episode none)) = [] := by
  refine ⟨?_, ?_, ?_, rfl⟩
  · match req with
    | none => simp [handle_background_request]
    | some (Request.Feed u) =>
      cases h : fetch u <;> simp [handle_background_request, h]
    | some (Request.Episode e) =>
      cases e <;> simp [handle_background_request]
  · intro u h
    simp [handle_background_request, h]
  · intro u c h
    simp [handle_background_request, h]

/-- Witness for C1 at a failing fetch and a concrete feed request. -/
theorem worker_at_most_one_response_only_on_success_witness :
    (handle_background_request (fun _ => none)
      (some (Request.Feed "https://g.co".data))).length ≤ 1 ∧
    handle_background_request (fun _ => none)
      (some (Request.Feed "https://g.co".data)) = [] ∧
    handle_background_request (fun _ => none)
      (some (Request.Episode none)) = [] := by
  obtain ⟨h1, h2, _, h4⟩ := worker_at_most_one_response_only_on_success
    (fun _ => none) (some (Request.Feed "https://g.co".data))
  exact ⟨h1, h2 _ rfl, h4⟩

/-- C2 counterexample: the bare string `/load` does not parse to `NoOp`;
it parses to `FetchPodcastFeed` of the empty string (the source tests
assert exactly this). -/
theorem parse_bare_load_is_fetch_not_noop :
    parse "/load".data = Command.FetchPodcastFeed [] ∧
    parse "/load".data ≠ Command.NoOp := by decide

/-- C2 (amended): `parse` is total; an input of the form `"/load " ++ u`
parses to `FetchPodcastFeed` of the space-separated tokens of `u`
concatenated without separators; an input whose first space-token is not
`/load` (including the empty string) parses to `NoOp`; but the bare
string `/load` parses to `FetchPodcastFeed("")`, not `NoOp`. -/
theorem parse_load_and_noop_amended (u s : Str) :
    parse ("/load ".data ++ u) =
      Command.FetchPodcastFeed (splitOnSpace u).flatten ∧
    ((splitOnSpace s).headI ≠ "/load".data → parse s = Command.NoOp) ∧
    parse "/load".data = Command.FetchPodcastFeed [] := by
  refine ⟨?_, ?_, by decide⟩
  · unfold parse
    rw [splitOnSpace_load_head]
    simp
  · intro h
    obtain ⟨t, ts, hs⟩ := List.exists_cons_of_ne_nil (splitOnSpace_ne_nil s)
    rw [hs] at h
    simp only [List.headI] at h
    simp [parse, hs, h]

/-- Witness for C2 at concrete inputs. -/
theorem parse_load_and_noop_amended_witness :
    parse ("/load ".data ++ "https://a.b c".data) =
      Command.FetchPodcastFeed "https://a.bc".data ∧
    parse "xyz".data = Command.NoOp ∧
    parse "/load".data = Command.FetchPodcastFeed [] := by
  obtain ⟨h1, h2, h3⟩ := parse_load_and_noop_amended "https://a.b c".data "xyz".data
  refine ⟨?_, h2 (by decide), h3⟩
  rw [h1]
  decide

/-- C6: a `FetchEpisode` request that carries an episode makes the worker
publish `EpisodeLoaded` with a payload identical to the episode in the
request, with no fetch involved and no transformation applied. -/
theorem episode_request_echoed_unchanged
    (fetch : Url → Option Channel) (ep : Item) :
    handle_background_request fetch (some (Request.Episode (some ep)))
      = [Response.Episode ep] := rfl

/-- C7: the foreground consumes at most one response per cycle (the
argument of `pollResponse` is the result of one non-blocking `try_recv`)
and applying it mutates only the corresponding field: `FeedLoaded`
replaces the loaded channel and `EpisodeLoaded` replaces the loaded
episode, while the display action, the input buffer and the list cursor
are unchanged. -/
theorem response_application_frame
    (app : App) (rx : Option Response) (c : Channel) (e : Item) :
    (pollResponse app rx).display_action = app.display_action ∧
    (pollResponse app rx).input = app.input ∧
    (pollResponse app rx).state = app.state ∧
    pollResponse app none = app ∧
    pollResponse app (some (Response.Feed c)) = { app with channel := some c } ∧
    pollResponse app (some (Response.Episode e)) = { app with item := some e } := by
  refine ⟨?_, ?_, ?_, rfl, rfl, rfl⟩ <;>
    cases rx with
    | none => rfl
    | some r => cases r <;> rfl

/-- C3 counterexample: submitting an unparsable URL in the `Input` state
leaves no request and keeps the display, but it does not leave the input
buffer unchanged — `app.input.drain(..)` empties the buffer before the
URL check, so the buffer is cleared even on an invalid URL. -/
theorem submit_input_invalid_url_clears_buffer :
    (submit urlParseModel invalidInputApp).1.input = [] ∧
    invalidInputApp.input ≠ [] ∧
    (submit urlParseModel invalidInputApp).2 = [] ∧
    (submit urlParseModel invalidInputApp).1.display_action = DisplayAction.Input := by
  decide

/-- C3 (amended): a submit in the `Input` state with a buffer that parses
as a valid absolute URL emits exactly one `Feed` request carrying that
URL, clears the buffer and moves the display to `ListEpisodes`; with an
unparsable buffer it emits no request and leaves the display and the
rest of the state unchanged, but the input buffer is still cleared
(drained before validation), not left unchanged. -/
theorem submit_input_state_amended (urlParse : Str → Option Url) (app : App)
    (h : app.display_action = DisplayAction.Input) :
    (∀ u, urlParse app.input = some u →
      submit urlParse app =
        ({ app with input := [], display_action := DisplayAction.ListEpisodes },
          [Request.Feed u])) ∧
    (urlParse app.input = none →
      submit urlParse app = ({ app with input := [] }, [])) := by
  constructor
  · intro u hu
    simp [submit, h, hu]
  · intro hu
    simp [submit, h, hu]

/-- Witness for C3 at a valid and at an invalid concrete input buffer. -/
theorem submit_input_state_amended_witness :
    submit urlParseModel validInputApp =
      ({ validInputApp with
         input := [],
         display_action := DisplayAction.ListEpisodes },
        [Request.Feed "https://g.co".data]) ∧
    submit urlParseModel invalidInputApp =
      ({ invalidInputApp with input := [] }, []) := by
  obtain ⟨h1, _⟩ := submit_input_state_amended urlParseModel validInputApp rfl
  obtain ⟨_, h2⟩ := submit_input_state_amended urlParseModel invalidInputApp rfl
  exact ⟨h1 _ (by decide), h2 (by decide)⟩

/-- C4: a submit in the `ListEpisodes` state with a loaded channel and a
cursor selecting a valid index moves the display to `DescribeEpisode` and
emits exactly one `FetchEpisode` request carrying the cursor-selected
episode; when no selection resolves to an episode, a `FetchEpisode`
request carrying nothing is emitted and the display stays
`ListEpisodes`. -/
theorem submit_list_episodes_selection (urlParse : Str → Option Url)
    (app : App) (h : app.display_action = DisplayAction.ListEpisodes) :
    (∀ c i ep, app.channel = some c → app.state.selected = some i →
      c.items.get? i = some ep →
      submit urlParse app =
        ({ app with display_action := DisplayAction.DescribeEpisode },
          [Request.Episode (some ep)])) ∧
    (selectedItem app = none →
      submit urlParse app = (app, [Request.Episode none])) := by
  constructor
  · intro c i ep hc hi hget
    rw [List.get?_eq_getElem?] at hget
    have hsel : selectedItem app = some ep := by
      simp [selectedItem, hc, hi, hget]
    simp [submit, h, hsel]
  · intro hsel
    simp [submit, h, hsel]

/-- Witness for C4 at a concrete two-episode channel with the cursor on
the second episode, and at the selection-free default state moved to
`ListEpisodes`. -/
theorem submit_list_episodes_selection_witness :
    submit urlParseModel twoItemApp =
      ({ twoItemApp with display_action := DisplayAction.DescribeEpisode },
        [Request.Episode (some epB)]) ∧
    submit urlParseModel { App.default with display_action := DisplayAction.ListEpisodes } =
      ({ App.default with display_action := DisplayAction.ListEpisodes },
        [Request.Episode none]) := by
  obtain ⟨h1, _⟩ := submit_list_episodes_selection urlParseModel twoItemApp rfl
  obtain ⟨_, h2⟩ := submit_list_episodes_selection urlParseModel
    { App.default with display_action := DisplayAction.ListEpisodes } rfl
  exact ⟨h1 _ 1 epB rfl rfl rfl, h2 (by decide)⟩

/-- C5 counterexample: over a loaded channel with an empty episode list and
an existing selection, cursor-down does not default the selection to
index 0 — the index computation underflows (`items.len() - 1` with zero
items), modelled as `none`. -/
theorem next_empty_list_with_selection_no_default :
    App.next emptyListSelApp = none ∧
    App.next emptyListSelApp ≠
      some { emptyListSelApp with state := { selected := some 0 } } := by
  decide

/-- C5 (amended): over a loaded channel with a non-empty episode list of
length N and a selection at index i, cursor-down moves the selection to 0
when i is at or beyond the last index and to i+1 otherwise, and cursor-up
moves it to N-1 when i is 0 and to i-1 otherwise; the selection defaults
to index 0 only when no channel is loaded or no selection exists; when
the episode list is empty while a selection exists, the index computation
underflows (cursor-down always; cursor-up when i is 0) instead of
defaulting to 0. -/
theorem cursor_wrap_amended (app : App) (c : Channel) (i : Nat) :
    (app.channel = some c → app.state.selected = some i → c.items ≠ [] →
      App.next app = some { app with
        state := { selected := some (if c.items.length - 1 ≤ i then 0 else i + 1) } } ∧
      App.previous app = some { app with
        state := { selected := some (if i = 0 then c.items.length - 1 else i - 1) } }) ∧
    (app.channel = some c → app.state.selected = some i → c.items = [] →
      App.next app = none ∧ (i = 0 → App.previous app = none)) ∧
    ((app.channel = none ∨ app.state.selected = none) →
      App.next app = some { app with state := { selected := some 0 } } ∧
      App.previous app = some { app with state := { selected := some 0 } }) := by
  refine ⟨?_, ?_, ?_⟩
  · intro hc hi hne
    have hlen : 1 ≤ c.items.length := List.length_pos.mpr hne
    constructor
    · simp [App.next, nextIndex, hc, hi, checkedSub, hlen]
    · by_cases h0 : i = 0 <;>
        simp [App.previous, prevIndex, hc, hi, checkedSub, hlen, h0]
  · intro hc hi he
    constructor
    · simp [App.next, nextIndex, hc, hi, checkedSub, he]
    · intro h0
      simp [App.previous, prevIndex, hc, hi, checkedSub, he, h0]
  · rintro (hch | hsel)
    · cases hs : app.state.selected <;>
        simp [App.next, nextIndex, App.previous, prevIndex, hch, hs]
    · cases hch : app.channel <;>
        simp [App.next, nextIndex, App.previous, prevIndex, hsel, hch]

/-- Witness for C5: wrap on a two-episode channel with the cursor on the
last episode, underflow on the empty-list state, and the default-0 path
on the initial state. -/
theorem cursor_wrap_amended_witness :
    App.next twoItemApp = some { twoItemApp with state := { selected := some 0 } } ∧
    App.previous twoItemApp = some { twoItemApp with state := { selected := some 0 } } ∧
    App.next emptyListSelApp = none ∧
    App.previous emptyListSelApp = none ∧
    App.next App.default = some { App.default with state := { selected := some 0 } } := by
  obtain ⟨w1, _, _⟩ := cursor_wrap_amended twoItemApp
    { title := "t".data, items := [epA, epB] } 1
  obtain ⟨_, e2, _⟩ := cursor_wrap_amended emptyListSelApp
    { title := [], items := [] } 0
  obtain ⟨_, _, d3⟩ := cursor_wrap_amended App.default
    { title := [], items := [] } 0
  obtain ⟨wn, wp⟩ := w1 rfl rfl (by decide)
  refine ⟨?_, ?_, (e2 rfl rfl rfl).1, (e2 rfl rfl rfl).2 rfl, (d3 (Or.inl rfl)).1⟩
  · rw [wn]; decide
  · rw [wp]; decide

/-- C10: the claim that the unguarded subtractions `items.len() - 1` in
`App::next` and `App::previous` never underflow is violated by the code:
at the reachable state with a loaded zero-episode channel and selection 0,
both operations underflow (modelled as `none`; a panic in a debug
build). -/
theorem cursor_ops_underflow_at_empty_list :
    App.next emptyListSelApp = none ∧
    App.previous emptyListSelApp = none := by decide

/-- C9 counterexample: in the initial state no channel is loaded and the
selection is unset, yet cursor-down does not preserve the unset
selection — it sets it to index 0. -/
theorem cursor_down_sets_selection_without_channel :
    App.default.channel = none ∧
    App.default.state.selected = none ∧
    App.next App.default =
      some { App.default with state := { selected := some 0 } } := by decide

/-- A submit never changes the list cursor, whatever the display state. -/
theorem submit_state_frame (urlParse : Str → Option Url) (app : App) :
    (submit urlParse app).1.state = app.state := by
  cases h : app.display_action
  case Input => cases hu : urlParse app.input <;> simp [submit, h, hu]
  case ListEpisodes =>
    cases hi : (selectedItem app).isSome <;> simp [submit, h, hi]
  case DescribeEpisode => simp [submit, h]

/-- C9 (amended): the selection starts unset before any feed is loaded,
but it is not preserved by every operation: cursor-up and cursor-down in
a channel-less state set the selection to index 0, while every other
foreground operation (submit, character input, backspace, response
application) leaves the list cursor unchanged. -/
theorem unset_selection_amended (urlParse : Str → Option Url)
    (app a : App) (e : KEvent) (reqs : List Request) :
    App.default.state.selected = none ∧
    (app.channel = none →
      App.next app = some { app with state := { selected := some 0 } } ∧
      App.previous app = some { app with state := { selected := some 0 } }) ∧
    (e ≠ KEvent.up → e ≠ KEvent.down →
      step urlParse app e = some (a, reqs) → a.state = app.state) := by
  refine ⟨rfl, ?_, ?_⟩
  · intro hch
    cases hs : app.state.selected <;>
      simp [App.next, nextIndex, App.previous, prevIndex, hch, hs]
  · intro hu hd hstep
    cases e with
    | enter =>
      simp only [step, Option.some_inj] at hstep
      have hf := submit_state_frame urlParse app
      rw [hstep] at hf
      exact hf
    | char c =>
      simp only [step, Option.some_inj, Prod.mk.injEq] at hstep
      rw [← hstep.1]
    | backspace =>
      simp only [step, Option.some_inj, Prod.mk.injEq] at hstep
      rw [← hstep.1]
    | up => exact absurd rfl hu
    | down => exact absurd rfl hd
    | resp r =>
      cases r <;>
        · simp only [step, applyResponse, Option.some_inj, Prod.mk.injEq] at hstep
          rw [← hstep.1]
    | other =>
      simp only [step, Option.some_inj, Prod.mk.injEq] at hstep
      rw [← hstep.1]

/-- Witness for C9: cursor-down from the initial state sets the selection
to 0, while a character key leaves the cursor unchanged. -/
theorem unset_selection_amended_witness :
    App.default.state.selected = none ∧
    App.next App.default = some { App.default with state := { selected := some 0 } } ∧
    ({ App.default with input := ['a'] } : App).state = App.default.state := by
  obtain ⟨h1, h2, h3⟩ := unset_selection_amended urlParseModel App.default
    { App.default with input := ['a'] } (KEvent.char 'a') []
  exact ⟨h1, (h2 rfl).1, h3 (by decide) (by decide) (by decide)⟩

/-- Cursor-down, when it does not panic, changes only the list cursor. -/
theorem next_display_frame (app a : App) (h : App.next app = some a) :
    a.display_action = app.display_action := by
  unfold App.next at h
  cases hni : nextIndex app with
  | none => rw [hni] at h; cases h
  | some i =>
    rw [hni] at h
    simp only [Option.map_some', Option.some_inj] at h
    rw [← h]

/-- Cursor-up, when it does not panic, changes only the list cursor. -/
theorem prev_display_frame (app a : App) (h : App.previous app = some a) :
    a.display_action = app.display_action := by
  unfold App.previous at h
  cases hpi : prevIndex app with
  | none => rw [hpi] at h; cases h
  | some i =>
    rw [hpi] at h
    simp only [Option.map_some', Option.some_inj] at h
    rw [← h]

/-- No foreground step leaves the `DescribeEpisode` display state. -/
theorem step_keeps_describe (urlParse : Str → Option Url)
    (app a : App) (e : KEvent) (reqs : List Request)
    (h : app.display_action = DisplayAction.DescribeEpisode)
    (hs : step urlParse app e = some (a, reqs)) :
    a.display_action = DisplayAction.DescribeEpisode := by
  cases e with
  | enter =>
    have hsub : submit urlParse app = (app, []) := by simp [submit, h]
    simp only [step, hsub, Option.some_inj, Prod.mk.injEq] at hs
    rw [← hs.1]
    exact h
  | char c =>
    simp only [step, Option.some_inj, Prod.mk.injEq] at hs
    rw [← hs.1]
    exact h
  | backspace =>
    simp only [step, Option.some_inj, Prod.mk.injEq] at hs
    rw [← hs.1]
    exact h
  | up =>
    cases hp : app.previous with
    | none => simp [step, hp] at hs
    | some b =>
      simp only [step, hp, Option.map_some', Option.some_inj, Prod.mk.injEq] at hs
      obtain ⟨hba, -⟩ := hs
      rw [← hba, prev_display_frame app b hp]
      exact h
  | down =>
    cases hp : app.next with
    | none => simp [step, hp] at hs
    | some b =>
      simp only [step, hp, Option.map_some', Option.some_inj, Prod.mk.injEq] at hs
      obtain ⟨hba, -⟩ := hs
      rw [← hba, next_display_frame app b hp]
      exact h
  | resp r =>
    cases r <;>
      · simp only [step, applyResponse, Option.some_inj, Prod.mk.injEq] at hs
        rw [← hs.1]
        exact h
  | other =>
    simp only [step, Option.some_inj, Prod.mk.injEq] at hs
    rw [← hs.1]
    exact h

/-- A run of foreground steps that starts in `DescribeEpisode` and does
not panic ends in `DescribeEpisode`. -/
theorem run_keeps_describe (urlParse : Str → Option Url) :
    ∀ (es : List KEvent) (app a : App),
      app.display_action = DisplayAction.DescribeEpisode →
      run urlParse app es = some a →
      a.display_action = DisplayAction.DescribeEpisode := by
  intro es
  induction es with
  | nil =>
    intro app a h hr
    simp only [run, Option.some_inj] at hr
    rw [← hr]
    exact h
  | cons e es ih =>
    intro app a h hr
    rw [run] at hr
    cases hs : step urlParse app e with
    | none => rw [hs] at hr; cases hr
    | some p =>
      obtain ⟨b, reqs⟩ := p
      rw [hs] at hr
      exact ih b a (step_keeps_describe urlParse app b e reqs h hs) hr

/-- C8: once the display state is `DescribeEpisode` it never changes
again — for every sequence of foreground events (submits, key input,
cursor moves, response arrivals) that completes, the display stays
`DescribeEpisode` — and a submit in `DescribeEpisode` emits no request
and leaves the whole state unchanged. -/
theorem describe_episode_absorbing (urlParse : Str → Option Url)
    (app a : App) (es : List KEvent)
    (h : app.display_action = DisplayAction.DescribeEpisode) :
    (run urlParse app es = some a →
      a.display_action = DisplayAction.DescribeEpisode) ∧
    submit urlParse app = (app, []) :=
  ⟨fun hr => run_keeps_describe urlParse es app a h hr, by simp [submit, h]⟩

/-- The state reached from `describeApp` after a character key, a
cursor-down and a submit. -/
def describeAppAfter : App :=
  { App.default with
    input := ['x'],
    state := { selected := some 0 },
    display_action := DisplayAction.DescribeEpisode }

/-- Witness for C8 over a concrete three-event run from a concrete
`DescribeEpisode` state. -/
theorem describe_episode_absorbing_witness :
    describeAppAfter.display_action = DisplayAction.DescribeEpisode ∧
    submit urlParseModel describeApp = (describeApp, []) := by
  obtain ⟨h1, h2⟩ := describe_episode_absorbing urlParseModel describeApp
    describeAppAfter [KEvent.char 'x', KEvent.down, KEvent.enter] rfl
  exact ⟨h1 (by decide), h2⟩
